import Mathlib

/-!
Verification of the voice-cloner audio pipeline.

The development shallowly embeds the pure logic of the repository:
the workflow-state machine of src/orchestrator.py, the conversion
cascade of src/modules/voice_inference.py, the simulation converter of
src/modules/voice_converter_simulator.py, the profile-driven converter
of src/modules/advanced_voice_converter.py, the segmentation logic of
src/modules/audio_preprocessor.py, the formant extraction of
src/modules/speaker_profile_extractor.py and the loudness matching of
src/modules/gregg_voice_converter.py.

Audio buffers are lists of rationals.  Calls into external numerical
libraries (librosa, scipy, torch) are collected in a structure DspLib of
abstract primitives; each primitive carries, as a proof field, exactly
the documented behaviour the repository relies on (length preservation
for librosa pitch shifting and scipy filtering; the istft output length
of the Griffin-Lim mel reconstruction).  Exception outcomes of the
fallible strategies are fields of the same structure, so the cascade is
a total function of the environment.
-/

namespace VoiceCloner

/-- A mono audio buffer: a finite sequence of float samples, modelled
exactly as rationals. -/
abbrev Audio := List ℚ

/-- Peak absolute amplitude of a buffer, the value of np.max(np.abs(a))
(0 for the empty buffer, as numpy reductions are never reached on empty
buffers in the code paths modelled here). -/
def maxAbs (a : Audio) : ℚ := a.foldr (fun x m => max |x| m) 0

/-- The literal constant 1e-8 used throughout the repository as a
division guard. -/
def epsQ : ℚ := 1 / 100000000

/-- np.clip x lo hi = min (max x lo) hi. -/
def clipQ (x lo hi : ℚ) : ℚ := min (max x lo) hi

/-- The external numerical primitives the repository calls, together
with the documented behaviour the code relies on.  pitch_shift models
librosa.effects.pitch_shift (length-preserving by its fix_length step);
butter_sosfilt models scipy.signal.butter followed by sosfilt at a given
cutoff and pass direction (FIR/IIR filtering is length-preserving);
peaking_lfilter models the peaking-EQ lfilter of
advanced_voice_converter.py; spectral_centroid models
librosa.feature.spectral_centroid reduced to a scalar;
neural_reconstruct models the torch decoder composed with
librosa.feature.inverse.mel_to_audio in neural_voice_converter.py: with
center padding, hop 512 and no length argument, a buffer of n samples
yields 1 + n / 512 mel frames and the istft reconstruction has
512 * (n / 512) samples; sovits_result models the external SO-VITS-SVC
toolkit, returning none when it throws or returns None; stft_mag models
np.abs(librosa.stft(y)); target_linear models the float
10 ** (-3 / 20); neural_throws and profile_throws record which inputs
make the corresponding strategy raise at runtime for environmental
reasons (the deterministic raise of the neural peak normalisation on an
empty reconstruction is modelled in neural_convert_voice itself). -/
structure DspLib where
  pitch_shift : ℤ → Audio → Audio
  pitch_shift_length : ∀ n a, (pitch_shift n a).length = a.length
  butter_sosfilt : ℚ → Bool → Audio → Audio
  butter_sosfilt_length : ∀ c b a, (butter_sosfilt c b a).length = a.length
  peaking_lfilter : ℚ → ℚ → Audio → Audio
  peaking_lfilter_length : ∀ f e a, (peaking_lfilter f e a).length = a.length
  spectral_centroid : Audio → ℚ
  neural_reconstruct : Audio → Audio
  neural_reconstruct_length : ∀ a, (neural_reconstruct a).length = 512 * (a.length / 512)
  neural_throws : Audio → Bool
  profile_throws : Audio → Bool
  sovits_result : ℤ → String → Audio → Option Audio
  stft_mag : Audio → List (List ℚ)
  target_linear : ℚ

/-! ## voice_converter_simulator.py -/

/-- VoiceConversionSimulator.apply_pitch_shift (lines 22-42): returns
the input unchanged for a zero shift, otherwise defers to librosa. -/
def apply_pitch_shift (lib : DspLib) (audio : Audio) (shift_semitones : ℤ) : Audio :=
  if shift_semitones = 0 then audio
  else lib.pitch_shift shift_semitones audio

/-- create_realistic_voice_conversion (lines 189-246): librosa pitch
shift, then for a nonzero shift a brightness filter whose cutoff is the
Nyquist frequency scaled by a factor derived from the shift magnitude,
then peak renormalisation when the peak exceeds 1. -/
def create_realistic_voice_conversion (lib : DspLib) (sr : ℕ) (audio : Audio)
    (pitch_shift : ℤ) : Audio :=
  let result := lib.pitch_shift pitch_shift audio
  if pitch_shift ≠ 0 then
    let nyquist : ℚ := (sr : ℚ) / 2
    let pitch_abs : ℚ := |(pitch_shift : ℚ)|
    let brightness_factor : ℚ :=
      if pitch_shift > 0 then max (3/10) (1/2 - pitch_abs / 24)
      else min (7/10) (1/2 + pitch_abs / 24)
    let cutoff := nyquist * brightness_factor
    let filtered := lib.butter_sosfilt cutoff (decide (pitch_shift > 0)) result
    let max_val := maxAbs filtered
    if max_val > 1 then filtered.map (fun x => x / max_val) else filtered
  else result

/-! ## neural_voice_converter.py -/

/-- NeuralVoiceConverter.convert_voice (lines 167-192): mel encoding,
decoding and Griffin-Lim reconstruction (neural_reconstruct), then peak
normalisation with the 1e-8 guard (line 190).  When the source is
shorter than the 512-sample hop, the reconstruction is empty and
np.max on the zero-size array at line 190 raises ValueError; the caller
in voice_inference.py catches it, so the empty case is none here and
the cascade falls through. -/
def neural_convert_voice (lib : DspLib) (source : Audio) : Option Audio :=
  let converted := lib.neural_reconstruct source
  if converted.isEmpty then none
  else some (converted.map (fun x => x / (maxAbs converted + epsQ)))

/-! ## advanced_voice_converter.py -/

/-- The subset of the speaker-profile dictionary read by
AdvancedVoiceConverter: the formant list and the spectral centroid
(0 standing for an absent or falsy centroid entry). -/
structure SpeakerProfileDict where
  formant_frequencies : List ℚ
  spectral_centroid : ℚ

/-- AdvancedVoiceConverter._apply_formant_emphasis (lines 82-135):
a peaking filter per formant among the first three, skipping
frequencies below 50 Hz, above Nyquist, or with normalised frequency
at or above 1. -/
def apply_formant_emphasis (lib : DspLib) (sr : ℕ) (formant_freqs : List ℚ)
    (emphasis : ℚ) (audio : Audio) : Audio :=
  (formant_freqs.take 3).foldl (fun result f =>
    if f < 50 ∨ f > (sr : ℚ) / 2 then result
    else if 2 * f / (sr : ℚ) ≥ 1 then result
    else lib.peaking_lfilter f emphasis result) audio

/-- AdvancedVoiceConverter._apply_spectral_brightness (lines 137-156). -/
def apply_spectral_brightness (lib : DspLib) (sr : ℕ) (brightness : ℚ)
    (audio : Audio) : Audio :=
  let nyquist : ℚ := (sr : ℚ) / 2
  if brightness > 1 then
    let cutoff := 1000 * (2 - brightness)
    if 20 < cutoff ∧ cutoff < nyquist then lib.butter_sosfilt cutoff true audio else audio
  else if brightness < 1 then
    let cutoff := 8000 * brightness
    if 20 < cutoff ∧ cutoff < nyquist then lib.butter_sosfilt cutoff false audio else audio
  else audio

/-- AdvancedVoiceConverter._match_spectral_envelope (lines 158-180). -/
def match_spectral_envelope (lib : DspLib) (sr : ℕ) (target_centroid : ℚ)
    (audio : Audio) : Audio :=
  let current := lib.spectral_centroid audio
  if current < target_centroid then
    apply_spectral_brightness lib sr (min (13/10) (target_centroid / (current + 1))) audio
  else
    apply_spectral_brightness lib sr (max (7/10) (target_centroid / (current + 1))) audio

/-- AdvancedVoiceConverter._safe_normalize (lines 182-194): scale a
nonsilent buffer so its peak is the -3 dB point, then hard-clip to
[-1, 1]. -/
def safe_normalize (lib : DspLib) (audio : Audio) : Audio :=
  let max_abs := maxAbs audio
  let a := if max_abs > 0 then audio.map (fun x => x * (lib.target_linear / max_abs))
           else audio
  a.map (fun x => clipQ x (-1) 1)

/-- AdvancedVoiceConverter.apply_speaker_characteristics (lines 31-80). -/
def apply_speaker_characteristics (lib : DspLib) (sr : ℕ)
    (profile : SpeakerProfileDict) (pitch_shift : ℤ)
    (formant_emphasis brightness : ℚ) (audio : Audio) : Audio :=
  let r1 := if pitch_shift ≠ 0 then lib.pitch_shift pitch_shift audio else audio
  let r2 := if formant_emphasis > 0 ∧ profile.formant_frequencies ≠ [] then
              apply_formant_emphasis lib sr profile.formant_frequencies formant_emphasis r1
            else r1
  let r3 := if brightness ≠ 1 then apply_spectral_brightness lib sr brightness r2 else r2
  let r4 := if profile.spectral_centroid ≠ 0 then
              match_spectral_envelope lib sr profile.spectral_centroid r3
            else r3
  safe_normalize lib r4

/-- AdvancedVoiceConverter.convert (lines 196-227) as wrapped by
apply_speaker_profile_conversion: formant emphasis defaults to 1.5 and
brightness is derived from the pitch direction. -/
def advanced_convert (lib : DspLib) (sr : ℕ) (profile : SpeakerProfileDict)
    (pitch_shift : ℤ) (audio : Audio) : Audio :=
  let formant_emphasis : ℚ := 3/2
  let brightness : ℚ :=
    if pitch_shift > 0 then max 1 (1 + (pitch_shift : ℚ) * (5/100))
    else if pitch_shift < 0 then min 1 (1 + (pitch_shift : ℚ) * (5/100))
    else 1
  apply_speaker_characteristics lib sr profile pitch_shift formant_emphasis brightness audio

/-! ## voice_inference.py -/

/-- The valid F0 methods of VoiceInference.convert_voice (line 131). -/
def valid_f0_methods : List String := ["crepe", "dio", "harvest"]

/-- The F0 substitution of VoiceInference.convert_voice (lines 130-134):
an invalid method is replaced by the default. -/
def validate_f0_method (m : String) : String :=
  if m ∈ valid_f0_methods then m else "crepe"

/-- Whether the substitution of lines 130-134 logs its warning. -/
def f0_method_warning (m : String) : Bool := decide (m ∉ valid_f0_methods)

/-- Which conversion strategy produced the result of the cascade. -/
inductive Strategy where
  | neural | profile | sovits | simulation

deriving instance DecidableEq for Strategy

/-- The availability flags and profile data that VoiceInference holds
when convert_voice runs: use_neural_converter with a live
neural_converter, use_speaker_profile with a loaded speaker_profile,
and a sovits_wrapper that is_available. -/
structure InferenceState where
  use_neural : Bool
  use_profile : Bool
  speaker_profile : SpeakerProfileDict
  sovits_available : Bool

/-- The strategy cascade of VoiceInference.convert_voice
(lines 130-216), acting on the loaded source buffer: neural conversion
first, then the speaker-profile transformation, then SO-VITS-SVC, then
the always-available simulation.  A strategy that throws (or, for
SO-VITS-SVC, returns None) yields none and falls through; the helper
either way ends in the simulation branch, exactly as the source does. -/
def convert_voice_cascade (lib : DspLib) (st : InferenceState) (sr : ℕ) (y : Audio)
    (pitch_shift : ℤ) (f0_method : String) : Audio × Strategy :=
  let f0 := validate_f0_method f0_method
  let neural : Option Audio :=
    if st.use_neural then
      (if lib.neural_throws y then none else neural_convert_voice lib y)
    else none
  match neural with
  | some r => (r, Strategy.neural)
  | none =>
    let prof : Option Audio :=
      if st.use_profile then
        (if lib.profile_throws y then none
         else some (advanced_convert lib sr st.speaker_profile pitch_shift y))
      else none
    match prof with
    | some r => (r, Strategy.profile)
    | none =>
      match (if st.sovits_available then lib.sovits_result pitch_shift f0 y else none) with
      | some r => (r, Strategy.sovits)
      | none => (create_realistic_voice_conversion lib sr y pitch_shift, Strategy.simulation)

/-- The rescaling step of VoiceInference.save_output_audio (line 298):
every sample is divided by the peak absolute amplitude plus 1e-8 before
the buffer is written. -/
def save_output_normalize (audio : Audio) : Audio :=
  audio.map (fun x => x / (maxAbs audio + epsQ))

/-! ## gregg_voice_converter.py, loudness matching (lines 216-232) -/

/-- The RMS scale factor of AdvancedGreggConverter.convert_voice
(lines 221-223): target over measured-plus-guard, clipped to
[0.3, 2.0]. -/
def gregg_rms_scale (target_rms output_rms : ℚ) : ℚ :=
  clipQ (target_rms / (output_rms + epsQ)) (3/10) 2

/-- The clipping guard of lines 229-232: rescale to a 0.95 peak when
the peak exceeds 0.95. -/
def gregg_prevent_clipping (output : Audio) : Audio :=
  let output_max := maxAbs output
  if output_max > 19/20 then output.map (fun x => x * ((19/20) / output_max)) else output

/-- The loudness-matching tail of AdvancedGreggConverter.convert_voice
(lines 216-232): scale by the clipped RMS ratio, then guard clipping.
The measured RMS values, which the source obtains as square roots, are
inputs here. -/
def gregg_loudness_match (target_rms output_rms : ℚ) (output : Audio) : Audio :=
  gregg_prevent_clipping (output.map (fun x => x * gregg_rms_scale target_rms output_rms))

/-! ## orchestrator.py -/

/-- The workflow_state dictionary of VoiceClonerOrchestrator
(lines 26-32). -/
structure WorkflowState where
  env_detected : Bool
  env_setup : Bool
  audio_processed : Bool
  model_trained : Bool
  ready_for_inference : Bool

deriving instance DecidableEq for WorkflowState

/-- The dictionary as initialised by the constructor: all flags false. -/
def initWorkflowState : WorkflowState :=
  ⟨false, false, false, false, false⟩

/-- One phase invocation on the orchestrator, recording the outcome of
the delegated collaborator call: ok is the boolean the collaborator
returns, and for phase 4, configOk is whether generate_training_config
succeeded before start_training ran. -/
inductive PhaseCall where
  | phase1 (ok : Bool)
  | phase2 (ok : Bool)
  | phase3 (ok : Bool)
  | phase4 (configOk : Bool) (ok : Bool)
  | phase5 (ok : Bool)

deriving instance DecidableEq for PhaseCall

/-- The effect of one phase invocation on workflow_state, as written in
run_phase_1 through run_phase_5 (orchestrator.py lines 34-158): each
phase first checks its predecessor flag and returns without touching
state when it is unset; otherwise it assigns its flag(s) the outcome of
the collaborator call.  Phase 4 assigns both model_trained and
ready_for_inference (lines 121-122) after its config step; phase 5
assigns no flag. -/
def runPhase (s : WorkflowState) : PhaseCall → WorkflowState
  | PhaseCall.phase1 ok => { s with env_detected := ok }
  | PhaseCall.phase2 ok => if s.env_detected then { s with env_setup := ok } else s
  | PhaseCall.phase3 ok => if s.env_setup then { s with audio_processed := ok } else s
  | PhaseCall.phase4 configOk ok =>
      if s.audio_processed then
        (if configOk then { s with model_trained := ok, ready_for_inference := ok } else s)
      else s
  | PhaseCall.phase5 _ => s

/-- Whether the collaborator call of an invocation reported success. -/
def callOk : PhaseCall → Bool
  | PhaseCall.phase1 ok => ok
  | PhaseCall.phase2 ok => ok
  | PhaseCall.phase3 ok => ok
  | PhaseCall.phase4 _ ok => ok
  | PhaseCall.phase5 ok => ok

/-- How many flags a step newly set, counting false-to-true
transitions between two states. -/
def newFlags (s t : WorkflowState) : ℕ :=
  (if s.env_detected = false ∧ t.env_detected = true then 1 else 0) +
  (if s.env_setup = false ∧ t.env_setup = true then 1 else 0) +
  (if s.audio_processed = false ∧ t.audio_processed = true then 1 else 0) +
  (if s.model_trained = false ∧ t.model_trained = true then 1 else 0) +
  (if s.ready_for_inference = false ∧ t.ready_for_inference = true then 1 else 0)

/-! ## audio_preprocessor.py, segmentation (lines 198-269) -/

/-- Python int() truncation toward zero on a rational: floor for
nonnegative values, ceiling for negative ones. -/
def pyTrunc (q : ℚ) : ℤ := if 0 ≤ q then q.floor else q.ceil

/-- The sample counts of the slices segment[i : i + maxS] taken by the
splitting loop of segment_and_denoise_audio (lines 241-242) for
i = 0, maxS, 2 maxS, ... below the segment length: the loop runs
ceil(len / maxS) times and the slice starting at i = k * maxS has
min maxS (len - i) samples.  Only called with maxS positive (a zero
step makes range raise, which the caller models as none). -/
def splitChunks (maxS : ℕ) (len : ℕ) : List ℕ :=
  (List.range ((len + maxS - 1) / maxS)).map (fun k => min maxS (len - k * maxS))

/-- Processing of one non-silent interval by the loop body of
segment_and_denoise_audio (lines 225-251), phrased on segment lengths
in samples: slice bounds clamp like Python slicing; a segment shorter
than MIN_DURATION is skipped; one longer than MAX_DURATION is split
into chunks of int(MAX_DURATION * sr) samples, keeping only chunks of
at least MIN_DURATION; otherwise the segment is kept whole.  none
models the ValueError that range raises on a zero step, which the
enclosing try/except of the source turns into an empty overall
result. -/
def processInterval (n sr : ℕ) (minD maxD : ℚ) (iv : ℕ × ℕ) : Option (List ℕ) :=
  let segLen := min iv.2 n - min iv.1 n
  let duration : ℚ := (segLen : ℚ) / (sr : ℚ)
  if duration < minD then some []
  else if duration > maxD then
    let max_samples := pyTrunc (maxD * (sr : ℚ))
    if max_samples = 0 then none
    else if max_samples < 0 then some []
    else some ((splitChunks max_samples.toNat segLen).filter
      (fun L => decide (minD ≤ (L : ℚ) / (sr : ℚ))))
  else some [segLen]

/-- The interval loop of segment_and_denoise_audio: process intervals
in order, concatenating the kept segments; an exception anywhere
discards everything, matching the try/except that returns []. -/
def processIntervals (n sr : ℕ) (minD maxD : ℚ) : List (ℕ × ℕ) → Option (List ℕ)
  | [] => some []
  | iv :: rest =>
      match processInterval n sr minD maxD iv, processIntervals n sr minD maxD rest with
      | some ls, some more => some (ls ++ more)
      | _, _ => none

/-- AudioPreprocessor.segment_and_denoise_audio (lines 198-269), phrased
on segment lengths in samples.  The non-silent intervals, produced by
librosa.effects.split, are an input; an empty interval list returns []
(line 218), and an exception inside the loop returns [] (line 269). -/
def segment_and_denoise_audio (n sr : ℕ) (minD maxD : ℚ)
    (intervals : List (ℕ × ℕ)) : List ℕ :=
  if intervals.isEmpty then []
  else
    match processIntervals n sr minD maxD intervals with
    | some segments => segments
    | none => []

/-! ## speaker_profile_extractor.py, formant extraction (lines 65-83) -/

/-- Arithmetic mean of a list, np.mean (0 on the empty list, never
reached on the code paths modelled here). -/
def listMean (xs : List ℚ) : ℚ := xs.sum / (xs.length : ℚ)

/-- np.percentile(xs, 80) with the default linear interpolation:
index rank 0.8 * (m - 1) into the ascending sort, interpolating
between the neighbouring order statistics. -/
def percentile80 (xs : List ℚ) : ℚ :=
  let s := List.insertionSort (fun a b => a ≤ b) xs
  let r : ℚ := (4/5) * ((xs.length : ℚ) - 1)
  let i := (⌊r⌋).toNat
  let frac := r - (⌊r⌋ : ℚ)
  s.getD i 0 + frac * (s.getD (i + 1) 0 - s.getD i 0)

/-- The peak-picking loop of SpeakerProfileExtractor.extract_formants
(lines 75-80): for each interior index of the frame-averaged magnitude
spectrum, keep the FFT bin frequency i * sr / n_fft when the bin is a
strict local maximum above the 80th percentile of the averaged
spectrum. -/
def formant_candidates (sr : ℕ) (avg_magnitude : List ℚ) : List ℚ :=
  let th := percentile80 avg_magnitude
  let n_fft := avg_magnitude.length * 2 - 2
  (List.range (avg_magnitude.length - 2)).filterMap (fun j =>
    let i := j + 1
    if avg_magnitude.getD i 0 > avg_magnitude.getD (i - 1) 0 ∧
       avg_magnitude.getD i 0 > avg_magnitude.getD (i + 1) 0 ∧
       avg_magnitude.getD i 0 > th
    then some ((i : ℚ) * (sr : ℚ) / (n_fft : ℚ)) else none)

/-- SpeakerProfileExtractor.extract_formants (lines 65-83): average the
magnitude spectrogram across frames, pick significant spectral peaks,
and return sorted(formants, reverse=True)[:4] — the four highest
candidate frequencies in descending order. -/
def extract_formants (lib : DspLib) (sr : ℕ) (y : Audio) : List ℚ :=
  let magnitude := lib.stft_mag y
  let avg_magnitude := magnitude.map listMean
  (List.insertionSort (fun a b => a ≥ b) (formant_candidates sr avg_magnitude)).take 4

/-! ## Concrete instantiations used to evaluate the model on closed inputs -/

/-- A single-frame magnitude spectrogram with 26 bins: constant bins of
height 10 interleaved with strictly increasing peak bins 11, ..., 22 at
the odd indices 1, 3, ..., 23. -/
def cexMag : List (List ℚ) :=
  [[10], [11], [10], [12], [10], [13], [10], [14], [10], [15], [10], [16], [10],
   [17], [10], [18], [10], [19], [10], [20], [10], [21], [10], [22], [10], [10]]

/-- A concrete environment: pitch shifting and filtering act as the
identity (length preserving, as the interface requires), the mel
reconstruction returns a silent buffer of the documented Griffin-Lim
length, no strategy throws for environmental reasons (the deterministic
ValueError of the peak normalisation on an empty reconstruction is
modelled structurally inside neural_convert_voice, not here), the
external toolkit is absent, and the short-time transform yields the
fixed spectrogram cexMag. -/
def idLib : DspLib where
  pitch_shift := fun _ a => a
  pitch_shift_length := fun _ _ => rfl
  butter_sosfilt := fun _ _ a => a
  butter_sosfilt_length := fun _ _ _ => rfl
  peaking_lfilter := fun _ _ a => a
  peaking_lfilter_length := fun _ _ _ => rfl
  spectral_centroid := fun _ => 0
  neural_reconstruct := fun a => List.replicate (512 * (a.length / 512)) 0
  neural_reconstruct_length := fun _ => List.length_replicate _ _
  neural_throws := fun _ => false
  profile_throws := fun _ => false
  sovits_result := fun _ _ _ => none
  stft_mag := fun _ => cexMag
  target_linear := 7/10

/-- An empty speaker-profile dictionary. -/
def emptyProfile : SpeakerProfileDict := ⟨[], 0⟩

/-- Inference state with no strategy configured: no neural converter,
no speaker profile, no toolkit. -/
def stOff : InferenceState := ⟨false, false, emptyProfile, false⟩

/-- Inference state with only the neural converter configured. -/
def stNeural : InferenceState := ⟨true, false, emptyProfile, false⟩

/-! ## Helper lemmas -/

theorem maxAbs_nonneg (a : Audio) : 0 ≤ maxAbs a := by
  induction a with
  | nil => simp [maxAbs]
  | cons x t ih => simp only [maxAbs, List.foldr_cons] at *; exact le_max_of_le_right ih

theorem maxAbs_cons (x : ℚ) (t : Audio) : maxAbs (x :: t) = max |x| (maxAbs t) := rfl

theorem maxAbs_map_div (a : Audio) (d : ℚ) (hd : 0 ≤ d) :
    maxAbs (a.map (fun x => x / d)) = maxAbs a / d := by
  induction a with
  | nil => simp [maxAbs]
  | cons x t ih =>
      simp only [List.map_cons, maxAbs_cons, ih]
      rw [abs_div, abs_of_nonneg hd, max_div_div_right hd]

theorem create_realistic_length (lib : DspLib) (sr : ℕ) (audio : Audio) (p : ℤ) :
    (create_realistic_voice_conversion lib sr audio p).length = audio.length := by
  simp [create_realistic_voice_conversion, apply_ite List.length,
    lib.butter_sosfilt_length, lib.pitch_shift_length]

theorem neural_convert_length (lib : DspLib) (a : Audio) (r : Audio)
    (h : neural_convert_voice lib a = some r) :
    r.length = 512 * (a.length / 512) ∧ 512 ≤ a.length := by
  simp only [neural_convert_voice] at h
  split at h
  · exact absurd h (by simp)
  · rename_i hne
    obtain rfl := Option.some.inj h
    refine ⟨by simp [lib.neural_reconstruct_length], ?_⟩
    by_contra hlt
    push_neg at hlt
    apply hne
    have h0 : (lib.neural_reconstruct a).length = 0 := by
      rw [lib.neural_reconstruct_length, Nat.div_eq_of_lt hlt, Nat.mul_zero]
    simp [List.isEmpty_iff, List.length_eq_zero.mp h0]

theorem apply_formant_emphasis_length (lib : DspLib) (sr : ℕ) (fs : List ℚ)
    (e : ℚ) (a : Audio) : (apply_formant_emphasis lib sr fs e a).length = a.length := by
  unfold apply_formant_emphasis
  generalize fs.take 3 = l
  induction l generalizing a with
  | nil => rfl
  | cons f t ih =>
      simp only [List.foldl_cons]
      split
      · exact ih a
      · split
        · exact ih a
        · rw [ih]; exact lib.peaking_lfilter_length _ _ _

theorem apply_spectral_brightness_length (lib : DspLib) (sr : ℕ) (b : ℚ) (a : Audio) :
    (apply_spectral_brightness lib sr b a).length = a.length := by
  simp [apply_spectral_brightness, apply_ite List.length, lib.butter_sosfilt_length]

theorem match_spectral_envelope_length (lib : DspLib) (sr : ℕ) (t : ℚ) (a : Audio) :
    (match_spectral_envelope lib sr t a).length = a.length := by
  simp [match_spectral_envelope, apply_ite List.length, apply_spectral_brightness_length]

theorem safe_normalize_length (lib : DspLib) (a : Audio) :
    (safe_normalize lib a).length = a.length := by
  simp [safe_normalize, apply_ite List.length]

theorem advanced_convert_length (lib : DspLib) (sr : ℕ) (profile : SpeakerProfileDict)
    (p : ℤ) (a : Audio) : (advanced_convert lib sr profile p a).length = a.length := by
  simp [advanced_convert, apply_speaker_characteristics, apply_ite List.length,
    safe_normalize_length, match_spectral_envelope_length,
    apply_spectral_brightness_length, apply_formant_emphasis_length,
    lib.pitch_shift_length]

/-! ## Claim theorems -/

/-- Claim C9: for every input buffer, a pitch shift of 0 semitones is
the identity: apply_pitch_shift returns the input buffer unchanged,
by the early return of voice_converter_simulator.py line 33. -/
theorem claim_pitch_shift_zero_identity (lib : DspLib) (audio : Audio) :
    apply_pitch_shift lib audio 0 = audio := by
  simp [apply_pitch_shift]

/-- Claim C2: when no neural converter, no speaker profile and no
toolkit model is configured, the cascade returns the buffer produced by
the always-available simulation strategy, for every source buffer,
every pitch shift (in particular -7) and every f0 method; that buffer
has the same length as the source, so the cascade never fails such a
request. -/
theorem claim_cascade_fallback_simulation (lib : DspLib) (prof : SpeakerProfileDict)
    (sr : ℕ) (y : Audio) (p : ℤ) (m : String) :
    convert_voice_cascade lib ⟨false, false, prof, false⟩ sr y p m =
      (create_realistic_voice_conversion lib sr y p, Strategy.simulation) ∧
    (create_realistic_voice_conversion lib sr y p).length = y.length :=
  ⟨rfl, create_realistic_length lib sr y p⟩

/-- Claim C7 (corrected part of the statement proved as claimed): a
conversion request whose f0 method is outside the valid enum has the
method substituted by the default with a warning, and the cascade on
the invalid method computes exactly what it computes on the default
method, so the substitution alone never alters or fails the
conversion. -/
theorem claim_f0_invalid_substitution (m : String) (h : m ∉ valid_f0_methods)
    (lib : DspLib) (st : InferenceState) (sr : ℕ) (y : Audio) (p : ℤ) :
    validate_f0_method m = "crepe" ∧ f0_method_warning m = true ∧
    convert_voice_cascade lib st sr y p m = convert_voice_cascade lib st sr y p "crepe" := by
  have h1 : validate_f0_method m = "crepe" := by
    rw [validate_f0_method, if_neg h]
  have e : validate_f0_method m = validate_f0_method "crepe" := by
    rw [h1]; decide
  refine ⟨h1, by simp [f0_method_warning, h], ?_⟩
  simp only [convert_voice_cascade, e]

/-- Witness for claim C7 at the concrete invalid method swipe. -/
theorem claim_f0_invalid_substitution_witness :
    ("swipe" ∉ valid_f0_methods) ∧
    (validate_f0_method "swipe" = "crepe" ∧ f0_method_warning "swipe" = true ∧
      convert_voice_cascade idLib stOff 44100 [] 0 "swipe" =
        convert_voice_cascade idLib stOff 44100 [] 0 "crepe") := by
  have h : ("swipe" : String) ∉ valid_f0_methods := by decide
  exact ⟨h, claim_f0_invalid_substitution "swipe" h idLib stOff 44100 [] 0⟩

/-- Claim C8: loudness matching with a zero target RMS divides by the
strictly positive guarded denominator, and the scale factor, clipped to
[0.3, 2.0], falls back to the safe minimum 0.3; the output is the input
scaled by 0.3, followed only by the clipping guard. -/
theorem claim_loudness_match_zero_target (output_rms : ℚ) (out : Audio)
    (h : 0 ≤ output_rms) :
    0 < output_rms + epsQ ∧ gregg_rms_scale 0 output_rms = 3/10 ∧
    gregg_loudness_match 0 output_rms out =
      gregg_prevent_clipping (out.map (fun x => x * (3/10))) := by
  have hpos : 0 < output_rms + epsQ := by
    have he : (0 : ℚ) < epsQ := by norm_num [epsQ]
    linarith
  have hs : gregg_rms_scale 0 output_rms = 3/10 := by
    simp [gregg_rms_scale, clipQ]
    norm_num
  refine ⟨hpos, hs, ?_⟩
  rw [gregg_loudness_match, hs]

/-- Witness for claim C8 at a concrete measured RMS and buffer. -/
theorem claim_loudness_match_zero_target_witness :
    (0 : ℚ) ≤ 1 ∧
    (0 < (1 : ℚ) + epsQ ∧ gregg_rms_scale 0 1 = 3/10 ∧
      gregg_loudness_match 0 1 [1] =
        gregg_prevent_clipping (([1] : Audio).map (fun x => x * (3/10)))) :=
  ⟨by norm_num, claim_loudness_match_zero_target 1 [1] (by norm_num)⟩

/-- Claim C3 counterexample: the workflow flags are not monotone as
claimed.  Running phase 1 with a successful detection sets env_detected,
and re-running phase 1 with a failing detection resets it to false on
the same orchestrator instance. -/
theorem claim_flags_monotone_cex :
    (runPhase initWorkflowState (PhaseCall.phase1 true)).env_detected = true ∧
    (runPhase (runPhase initWorkflowState (PhaseCall.phase1 true))
      (PhaseCall.phase1 false)).env_detected = false :=
  ⟨rfl, rfl⟩

/-- Claim C3 amended: each phase invocation assigns only the flags of
its own phase, so the workflow flags are monotone along every sequence
of invocations whose collaborator calls succeed; a flag set true can
only be reset by re-invoking its own phase with a failing collaborator
call. -/
theorem claim_flags_monotone_of_ok (s : WorkflowState) (c : PhaseCall)
    (h : callOk c = true) :
    (s.env_detected = true → (runPhase s c).env_detected = true) ∧
    (s.env_setup = true → (runPhase s c).env_setup = true) ∧
    (s.audio_processed = true → (runPhase s c).audio_processed = true) ∧
    (s.model_trained = true → (runPhase s c).model_trained = true) ∧
    (s.ready_for_inference = true → (runPhase s c).ready_for_inference = true) := by
  cases c <;> simp_all [callOk, runPhase] <;> split_ifs <;> simp_all

/-- Witness for the amended claim C3 at a concrete state and call. -/
theorem claim_flags_monotone_of_ok_witness :
    callOk (PhaseCall.phase1 true) = true ∧
    ((initWorkflowState.env_detected = true →
        (runPhase initWorkflowState (PhaseCall.phase1 true)).env_detected = true) ∧
     (initWorkflowState.env_setup = true →
        (runPhase initWorkflowState (PhaseCall.phase1 true)).env_setup = true) ∧
     (initWorkflowState.audio_processed = true →
        (runPhase initWorkflowState (PhaseCall.phase1 true)).audio_processed = true) ∧
     (initWorkflowState.model_trained = true →
        (runPhase initWorkflowState (PhaseCall.phase1 true)).model_trained = true) ∧
     (initWorkflowState.ready_for_inference = true →
        (runPhase initWorkflowState (PhaseCall.phase1 true)).ready_for_inference = true)) :=
  ⟨rfl, claim_flags_monotone_of_ok initWorkflowState (PhaseCall.phase1 true) rfl⟩

/-- Claim C6 counterexample: a successful phase 4 invocation from its
precondition state sets two flags, not exactly one. -/
theorem claim_one_flag_per_phase_cex :
    newFlags ⟨true, true, true, false, false⟩
      (runPhase ⟨true, true, true, false, false⟩ (PhaseCall.phase4 true true)) = 2 ∧
    newFlags ⟨true, true, true, false, false⟩
      (runPhase ⟨true, true, true, false, false⟩ (PhaseCall.phase4 true true)) ≠ 1 := by
  exact ⟨by decide, by decide⟩

/-- Claim C6 amended: from each phase's precondition state, a
successful invocation of phases 1, 2 and 3 sets exactly one flag,
phase 4 sets exactly two (model_trained and ready_for_inference), and
phase 5 sets none. -/
theorem claim_flags_set_per_phase :
    newFlags initWorkflowState (runPhase initWorkflowState (PhaseCall.phase1 true)) = 1 ∧
    newFlags ⟨true, false, false, false, false⟩
      (runPhase ⟨true, false, false, false, false⟩ (PhaseCall.phase2 true)) = 1 ∧
    newFlags ⟨true, true, false, false, false⟩
      (runPhase ⟨true, true, false, false, false⟩ (PhaseCall.phase3 true)) = 1 ∧
    newFlags ⟨true, true, true, false, false⟩
      (runPhase ⟨true, true, true, false, false⟩ (PhaseCall.phase4 true true)) = 2 ∧
    newFlags ⟨true, true, true, true, true⟩
      (runPhase ⟨true, true, true, true, true⟩ (PhaseCall.phase5 true)) = 0 := by
  decide

/-- Claim C10 counterexample: the normalisation of save_output_audio
does not give every written buffer a peak near 1; a silent converted
buffer is written with peak 0. -/
theorem claim_save_output_peak_cex :
    save_output_normalize [0, 0, 0] = [0, 0, 0] ∧
    maxAbs (save_output_normalize [0, 0, 0]) = 0 := by
  constructor <;> norm_num [save_output_normalize, maxAbs, epsQ]

/-- Claim C10 amended: save_output_audio rescales every sample by the
reciprocal of the peak plus 1e-8, so the written peak is exactly
peak / (peak + 1e-8) — approximately 1 for any buffer whose peak
dominates 1e-8, tending to 0 for quieter buffers, and always strictly
below 1; the absolute loudness produced by the conversion strategies is
never preserved. -/
theorem claim_save_output_peak (audio : Audio) :
    maxAbs (save_output_normalize audio) = maxAbs audio / (maxAbs audio + epsQ) ∧
    maxAbs (save_output_normalize audio) < 1 := by
  have he : (0 : ℚ) < epsQ := by norm_num [epsQ]
  have hd : 0 < maxAbs audio + epsQ := by
    have := maxAbs_nonneg audio
    linarith
  have hf : maxAbs (save_output_normalize audio) = maxAbs audio / (maxAbs audio + epsQ) :=
    maxAbs_map_div audio _ hd.le
  refine ⟨hf, ?_⟩
  rw [hf, div_lt_one hd]
  linarith

set_option maxRecDepth 40000 in
/-- Claim C1 counterexample: the cascade does not always preserve the
sample count.  With the neural converter configured, a 1000-sample
source buffer is converted by the neural strategy into a non-empty
buffer of 512 * (1000 / 512) = 512 samples (the Griffin-Lim
reconstruction length), and the cascade performs no trimming or padding
before saving. -/
theorem claim_cascade_length_cex :
    ((convert_voice_cascade idLib stNeural 44100 (List.replicate 1000 0) 0 "crepe").1).length ≠
      (List.replicate 1000 (0 : ℚ)).length := by
  have hrec : idLib.neural_reconstruct (List.replicate 1000 0) = List.replicate 512 0 := by
    show List.replicate (512 * ((List.replicate 1000 (0 : ℚ)).length / 512)) 0 =
      List.replicate 512 0
    have hlen : (List.replicate 1000 (0 : ℚ)).length = 1000 := List.length_replicate _ _
    have harg : 512 * (1000 / 512) = 512 := by norm_num
    rw [hlen, harg]
  have hnc : neural_convert_voice idLib (List.replicate 1000 0) =
      some ((List.replicate 512 (0 : ℚ)).map
        (fun x => x / (maxAbs (List.replicate 512 (0 : ℚ)) + epsQ))) := by
    unfold neural_convert_voice
    rw [hrec]
    rfl
  have ht : idLib.neural_throws (List.replicate 1000 0) = false := rfl
  have h1 : (convert_voice_cascade idLib stNeural 44100 (List.replicate 1000 0) 0 "crepe").1 =
      (List.replicate 512 (0 : ℚ)).map
        (fun x => x / (maxAbs (List.replicate 512 (0 : ℚ)) + epsQ)) := by
    simp [convert_voice_cascade, stNeural, ht, hnc, -List.reduceReplicate]
  rw [h1]
  simp [-List.reduceReplicate]

/-- Claim C1 amended: the profile and simulation strategies preserve
the sample count of the loaded source buffer; when the neural strategy
wins, the source holds at least the 512-sample hop and the result is
the Griffin-Lim reconstruction of exactly 512 * (n / 512) samples for
an n-sample source (equal to n only when 512 divides n) — for shorter
sources the empty reconstruction makes the peak normalisation raise and
the strategy falls through; the cascade applies no length correction,
and the external toolkit strategy carries no length guarantee. -/
theorem claim_cascade_length_by_strategy (lib : DspLib) (st : InferenceState)
    (sr : ℕ) (y : Audio) (p : ℤ) (m : String) (r : Audio) (s : Strategy)
    (h : convert_voice_cascade lib st sr y p m = (r, s)) :
    (s = Strategy.simulation ∨ s = Strategy.profile → r.length = y.length) ∧
    (s = Strategy.neural → r.length = 512 * (y.length / 512) ∧ 512 ≤ y.length) := by
  obtain ⟨un, up, prof, sv⟩ := st
  cases un <;> cases hnt : lib.neural_throws y <;>
    cases hnc : neural_convert_voice lib y <;>
      cases up <;> cases hpt : lib.profile_throws y <;>
        cases sv <;> cases hsv : lib.sovits_result p (validate_f0_method m) y <;>
          simp only [convert_voice_cascade] at h <;>
          simp [hnt, hnc, hpt, hsv] at h <;>
          obtain ⟨h1, h2⟩ := h <;> subst h1 <;> subst h2 <;>
          refine ⟨fun hc => ?_, fun hc => ?_⟩ <;>
            first
              | exact create_realistic_length lib sr y p
              | exact advanced_convert_length lib sr prof p y
              | exact neural_convert_length lib y _ hnc
              | exact absurd hc (by decide)

/-- Witness for the amended claim C1 at a concrete run that ends in the
simulation strategy. -/
theorem claim_cascade_length_by_strategy_witness :
    ((Strategy.simulation = Strategy.simulation ∨ Strategy.simulation = Strategy.profile →
        ([0, 0] : Audio).length = ([0, 0] : Audio).length) ∧
     (Strategy.simulation = Strategy.neural →
        ([0, 0] : Audio).length = 512 * (([0, 0] : Audio).length / 512) ∧
        512 ≤ ([0, 0] : Audio).length)) :=
  claim_cascade_length_by_strategy idLib stOff 44100 [0, 0] 0 "crepe"
    [0, 0] Strategy.simulation rfl

theorem splitChunks_le (maxS len L : ℕ) (h : L ∈ splitChunks maxS len) : L ≤ maxS := by
  simp only [splitChunks, List.mem_map] at h
  obtain ⟨k, _, rfl⟩ := h
  exact min_le_left _ _

theorem ratFloor_eq_intFloor (q : ℚ) : q.floor = ⌊q⌋ :=
  (Rat.floor_def' q).trans Rat.floor_def.symm

theorem pyTrunc_le_of_pos (q : ℚ) (h : 0 < pyTrunc q) : (pyTrunc q : ℚ) ≤ q := by
  by_cases hq : 0 ≤ q
  · rw [pyTrunc, if_pos hq, ratFloor_eq_intFloor]
    exact Int.floor_le q
  · exfalso
    rw [pyTrunc, if_neg hq] at h
    have hq' : q < 0 := not_le.mp hq
    have hnum : q.num < 0 := Rat.num_neg.mpr hq'
    have hden : (0 : ℤ) < (q.den : ℤ) := by exact_mod_cast q.pos
    rw [Rat.ceil] at h
    split at h
    · omega
    · have := Int.ediv_neg' hnum hden
      omega

theorem processInterval_bounds (n sr : ℕ) (minD maxD : ℚ) (iv : ℕ × ℕ)
    (ls : List ℕ) (hsr : 0 < sr) (h : processInterval n sr minD maxD iv = some ls) :
    ∀ L ∈ ls, minD ≤ (L : ℚ) / (sr : ℚ) ∧ (L : ℚ) / (sr : ℚ) ≤ maxD := by
  intro L hL
  have hsrQ : (0 : ℚ) < (sr : ℚ) := by exact_mod_cast hsr
  simp only [processInterval] at h
  split at h
  · obtain rfl := Option.some.inj h
    simp at hL
  · rename_i hlt
    split at h
    · split at h
      · exact absurd h (by simp)
      · rename_i hms
        split at h
        · obtain rfl := Option.some.inj h
          simp at hL
        · rename_i hgt hneg
          obtain rfl := Option.some.inj h
          obtain ⟨hmem, hcond⟩ := List.mem_filter.mp hL
          refine ⟨of_decide_eq_true hcond, ?_⟩
          have hpos : 0 < pyTrunc (maxD * (sr : ℚ)) := by omega
          have h1 : L ≤ (pyTrunc (maxD * (sr : ℚ))).toNat := splitChunks_le _ _ _ hmem
          have h2 : (L : ℚ) ≤ ((pyTrunc (maxD * (sr : ℚ)) : ℤ) : ℚ) := by
            rw [← Int.toNat_of_nonneg hpos.le]
            exact_mod_cast h1
          have h3 := pyTrunc_le_of_pos (maxD * (sr : ℚ)) hpos
          rw [div_le_iff₀ hsrQ]
          linarith
    · rename_i hgt
      obtain rfl := Option.some.inj h
      simp only [List.mem_singleton] at hL
      subst hL
      exact ⟨le_of_not_lt hlt, le_of_not_lt hgt⟩

theorem processIntervals_bounds (n sr : ℕ) (minD maxD : ℚ) (hsr : 0 < sr) :
    ∀ (ivs : List (ℕ × ℕ)) (ls : List ℕ),
      processIntervals n sr minD maxD ivs = some ls →
      ∀ L ∈ ls, minD ≤ (L : ℚ) / (sr : ℚ) ∧ (L : ℚ) / (sr : ℚ) ≤ maxD := by
  intro ivs
  induction ivs with
  | nil =>
      intro ls h L hL
      obtain rfl := Option.some.inj h
      simp at hL
  | cons iv rest ih =>
      intro ls h L hL
      unfold processIntervals at h
      cases hpi : processInterval n sr minD maxD iv with
      | none => rw [hpi] at h; simp at h
      | some l1 =>
          cases hrest : processIntervals n sr minD maxD rest with
          | none => rw [hpi, hrest] at h; simp at h
          | some l2 =>
              rw [hpi, hrest] at h
              obtain rfl := Option.some.inj h
              rcases List.mem_append.mp hL with h1 | h2
              · exact processInterval_bounds n sr minD maxD iv l1 hsr hpi L h1
              · exact ih l2 hrest L h2

/-- Claim C5: every segment emitted by segment_and_denoise_audio has a
duration between MIN_DURATION and MAX_DURATION: shorter intervals are
discarded, longer intervals are split into chunks of at most
MAX_DURATION seconds, and chunks shorter than MIN_DURATION are
discarded. -/
theorem claim_segment_duration_bounds (n sr : ℕ) (minD maxD : ℚ)
    (intervals : List (ℕ × ℕ)) (L : ℕ) (hsr : 0 < sr)
    (hL : L ∈ segment_and_denoise_audio n sr minD maxD intervals) :
    minD ≤ (L : ℚ) / (sr : ℚ) ∧ (L : ℚ) / (sr : ℚ) ≤ maxD := by
  unfold segment_and_denoise_audio at hL
  split at hL
  · simp at hL
  · split at hL
    · next segs heq => exact processIntervals_bounds n sr minD maxD hsr intervals segs heq L hL
    · simp at hL

/-- Witness for claim C5: a 30-sample interval at 10 Hz with
MIN_DURATION 1/2 and MAX_DURATION 2 is split; its first chunk of 20
samples is emitted and satisfies the bounds. -/
theorem claim_segment_duration_bounds_witness :
    0 < 10 ∧ 20 ∈ segment_and_denoise_audio 100 10 (1/2) 2 [(0, 30)] ∧
    ((1/2 : ℚ) ≤ (20 : ℚ) / ((10 : ℕ) : ℚ) ∧ (20 : ℚ) / ((10 : ℕ) : ℚ) ≤ 2) := by
  have hmem : 20 ∈ segment_and_denoise_audio 100 10 (1/2) 2 [(0, 30)] := by
    norm_num [segment_and_denoise_audio, processIntervals, processInterval, pyTrunc,
      splitChunks, ratFloor_eq_intFloor, List.range_succ]
    decide
  exact ⟨by norm_num, hmem,
    claim_segment_duration_bounds 100 10 (1/2) 2 [(0, 30)] 20 (by norm_num) hmem⟩

/-- Claim C4 counterexample: extract_formants does not keep the lowest
valid candidates.  On a spectrum whose candidate peak frequencies are
30, 34, 38, 42 and 46 Hz, the function returns the four highest in
descending order and drops the lowest candidate, 30 Hz. -/
theorem claim_extract_formants_cex :
    extract_formants idLib 100 [] = [46, 42, 38, 34] ∧
    formant_candidates 100 ((idLib.stft_mag []).map listMean) = [30, 34, 38, 42, 46] ∧
    (30 : ℚ) ∉ extract_formants idLib 100 [] := by
  have hmag : idLib.stft_mag [] = cexMag := rfl
  have havg : cexMag.map listMean =
      [10, 11, 10, 12, 10, 13, 10, 14, 10, 15, 10, 16, 10,
       17, 10, 18, 10, 19, 10, 20, 10, 21, 10, 22, 10, 10] := by
    norm_num [cexMag, listMean]
  have hth : percentile80
      [10, 11, 10, 12, 10, 13, 10, 14, 10, 15, 10, 16, 10,
       17, 10, 18, 10, 19, 10, 20, 10, 21, 10, 22, 10, 10] = 17 := by
    norm_num [percentile80, List.insertionSort, List.orderedInsert,
      Int.floor_ofNat, Int.toNat_ofNat]
    rfl
  have hcand : formant_candidates 100 ((idLib.stft_mag []).map listMean) =
      [30, 34, 38, 42, 46] := by
    rw [hmag, havg]
    simp only [formant_candidates]
    rw [hth]
    norm_num [List.range_succ, List.filterMap_cons]
  have hres : extract_formants idLib 100 [] = [46, 42, 38, 34] := by
    have hdef : extract_formants idLib 100 [] =
        (List.insertionSort (fun a b => a ≥ b)
          (formant_candidates 100 ((idLib.stft_mag []).map listMean))).take 4 := rfl
    rw [hdef, hcand]
    norm_num [List.insertionSort, List.orderedInsert]
  exact ⟨hres, hcand, by rw [hres]; norm_num⟩

/-- Claim C4 amended: extract_formants averages the magnitude spectrum
across frames, collects as candidates the strict local spectral maxima
above the 80th percentile of the averaged spectrum, and returns the at
most four highest candidates in descending order: the result is sorted
descending, has length min 4 (number of candidates), consists of
candidates, and dominates every candidate it leaves out.  There is no
per-frame linear-predictive-coding fit, and the lowest candidates are
the ones dropped. -/
theorem claim_extract_formants_top4 (lib : DspLib) (sr : ℕ) (y : Audio) :
    List.Sorted (fun a b : ℚ => a ≥ b) (extract_formants lib sr y) ∧
    (extract_formants lib sr y).length =
      min 4 (formant_candidates sr ((lib.stft_mag y).map listMean)).length ∧
    (∀ x ∈ extract_formants lib sr y,
      x ∈ formant_candidates sr ((lib.stft_mag y).map listMean)) ∧
    (∀ x ∈ formant_candidates sr ((lib.stft_mag y).map listMean),
      x ∉ extract_formants lib sr y → ∀ z ∈ extract_formants lib sr y, x ≤ z) := by
  have hdef : extract_formants lib sr y =
      (List.insertionSort (fun a b => a ≥ b)
        (formant_candidates sr ((lib.stft_mag y).map listMean))).take 4 := rfl
  rw [hdef]
  have hsort : List.Sorted (fun a b : ℚ => a ≥ b)
      (List.insertionSort (fun a b => a ≥ b)
        (formant_candidates sr ((lib.stft_mag y).map listMean))) :=
    List.sorted_insertionSort _ _
  refine ⟨?_, ?_, ?_, ?_⟩
  · exact hsort.sublist (List.take_sublist 4 _)
  · rw [List.length_take, List.length_insertionSort]
  · intro x hx
    exact (List.mem_insertionSort _).mp (List.mem_of_mem_take hx)
  · intro x hx hnx z hz
    have hxL : x ∈ List.insertionSort (fun a b => a ≥ b)
        (formant_candidates sr ((lib.stft_mag y).map listMean)) :=
      (List.mem_insertionSort _).mpr hx
    rw [← List.take_append_drop 4 (List.insertionSort (fun a b => a ≥ b)
      (formant_candidates sr ((lib.stft_mag y).map listMean)))] at hxL
    rcases List.mem_append.mp hxL with htake | hdrop
    · exact absurd htake hnx
    · exact hsort.rel_of_mem_take_of_mem_drop hz hdrop

end VoiceCloner
